import Mathlib

/-!
# Verification of the gai conversation core

A shallow embedding, in Lean 4, of the conversation data model, content
normalization and provider-adapter code of the `gai` command-line tool
(Go sources under `go-gai/types`, `go-gai/utils`, `types` and `utils`).

Pure Go functions become Lean functions over `List Nat` (bytes),
`List Char` / `String` (Go strings) and association lists (Go maps).
Effectful subcalls (HTTP transport, file readers, JSON codecs of the Go
standard library, stdlib image decoders, the process clock) are modelled
by environment records whose fields hold the outcome of each call, so the
control flow of the Go functions is reproduced exactly while the external
world stays abstract.
-/

namespace Gai

/-! ## Go string helpers -/

/-- `strings.Index(haystack, needle)` on character lists: byte index of the
first occurrence of `needle` in `haystack`, `none` when absent (Go returns -1). -/
def goIndex : List Char → List Char → Option Nat
  | [], needle => if needle = [] then some 0 else none
  | h :: t, needle =>
      if needle.isPrefixOf (h :: t) then some 0
      else (goIndex t needle).map (· + 1)

/-- `strings.TrimSpace`: strip leading and trailing whitespace. -/
def goTrimSpace (s : String) : String :=
  String.mk (((s.data.dropWhile Char.isWhitespace).reverse.dropWhile
    Char.isWhitespace).reverse)

/-- `strings.ToLower`. -/
def goToLower (s : String) : String := String.mk (s.data.map Char.toLower)

/-- `strings.HasPrefix(s, pre)`. -/
def goHasPrefixStr (s pre : String) : Bool := pre.data.isPrefixOf s.data

/-- `strings.HasSuffix(s, suffix)`. -/
def goHasSuffixStr (s suf : String) : Bool := suf.data.isSuffixOf s.data

/-- `strings.TrimPrefix(s, pre)`: drop `pre` when it is a leading part of `s`,
otherwise return `s` unchanged. -/
def goTrimPrefixOf (s pre : String) : String :=
  if goHasPrefixStr s pre then String.mk (s.data.drop pre.data.length) else s

/-- `strings.SplitN(s, sep, 2)` for a non-empty separator: split at the first
occurrence of `sep` only; a single part when `sep` does not occur. -/
def goSplitN2 (s sep : String) : List String :=
  match goIndex s.data sep.data with
  | none => [s]
  | some idx =>
      [String.mk (s.data.take idx), String.mk (s.data.drop (idx + sep.data.length))]

/-! ## base64 (Go `encoding/base64`, `StdEncoding`) -/

/-- The standard base64 alphabet used by `base64.StdEncoding`. -/
def b64Alphabet : List Char :=
  "ABCDEFGHIJKLMNOPQRSTUVWXYZabcdefghijklmnopqrstuvwxyz0123456789+/".toList

/-- Character of a six-bit group (`'='` is unreachable for values below 64). -/
def sextetToChar (n : Nat) : Char := b64Alphabet.getD n '='

/-- Index of a character in a list, used to invert the base64 alphabet. -/
def findCharIdx (c : Char) : List Char → Option Nat
  | [] => none
  | a :: t => if a = c then some 0 else (findCharIdx c t).map (· + 1)

/-- Six-bit value of an alphabet character, `none` for characters outside the
alphabet (including the `'='` pad). -/
def charToSextet (c : Char) : Option Nat := findCharIdx c b64Alphabet

/-- `base64.StdEncoding.EncodeToString`: three input bytes become four output
characters; a final group of one or two bytes is padded with `'='`. -/
def b64Encode : List Nat → List Char
  | [] => []
  | [b0] =>
      [sextetToChar (b0 / 4), sextetToChar (b0 % 4 * 16), '=', '=']
  | [b0, b1] =>
      [sextetToChar (b0 / 4), sextetToChar (b0 % 4 * 16 + b1 / 16),
       sextetToChar (b1 % 16 * 4), '=']
  | b0 :: b1 :: b2 :: rest =>
      sextetToChar (b0 / 4) :: sextetToChar (b0 % 4 * 16 + b1 / 16) ::
      sextetToChar (b1 % 16 * 4 + b2 / 64) :: sextetToChar (b2 % 64) ::
      b64Encode rest

/-- `base64.StdEncoding.DecodeString`: four-character groups, pad characters
legal only at the very end, any character outside the alphabet rejected.
(Go additionally skips CR and LF bytes, which the encoder never emits.) -/
def b64Decode : List Char → Except Unit (List Nat)
  | [] => .ok []
  | c0 :: c1 :: c2 :: c3 :: rest =>
      match charToSextet c0, charToSextet c1 with
      | some s0, some s1 =>
          if c2 = '=' then
            if c3 = '=' ∧ rest = [] then .ok [s0 * 4 + s1 / 16] else .error ()
          else if c3 = '=' then
            if rest = [] then
              match charToSextet c2 with
              | some s2 => .ok [s0 * 4 + s1 / 16, s1 % 16 * 16 + s2 / 4]
              | none => .error ()
            else .error ()
          else
            match charToSextet c2, charToSextet c3 with
            | some s2, some s3 =>
                match b64Decode rest with
                | .ok bs =>
                    .ok ((s0 * 4 + s1 / 16) :: (s1 % 16 * 16 + s2 / 4) ::
                         (s2 % 4 * 64 + s3) :: bs)
                | .error e => .error e
            | _, _ => .error ()
      | _, _ => .error ()
  | _ => .error ()

theorem charToSextet_sextetToChar : ∀ s < 64, charToSextet (sextetToChar s) = some s := by
  decide

theorem sextetToChar_ne_pad : ∀ s < 64, sextetToChar s ≠ '=' := by
  decide

/-- The decoder inverts the encoder on byte sequences. -/
theorem b64Decode_b64Encode :
    ∀ bs : List Nat, (∀ b ∈ bs, b < 256) → b64Decode (b64Encode bs) = .ok bs
  | [], _ => by simp [b64Encode, b64Decode]
  | [b0], h => by
      have hb0 : b0 < 256 := h b0 (by simp)
      have h0 : b0 / 4 < 64 := by omega
      have h1 : b0 % 4 * 16 < 64 := by omega
      simp only [b64Encode, b64Decode, charToSextet_sextetToChar _ h0,
        charToSextet_sextetToChar _ h1, if_pos rfl, and_self, ite_true,
        Except.ok.injEq, List.cons.injEq, and_true]
      omega
  | [b0, b1], h => by
      have hb0 : b0 < 256 := h b0 (by simp)
      have hb1 : b1 < 256 := h b1 (by simp)
      have h0 : b0 / 4 < 64 := by omega
      have h1 : b0 % 4 * 16 + b1 / 16 < 64 := by omega
      have h2 : b1 % 16 * 4 < 64 := by omega
      simp only [b64Encode, b64Decode, charToSextet_sextetToChar _ h0,
        charToSextet_sextetToChar _ h1, charToSextet_sextetToChar _ h2,
        if_neg (sextetToChar_ne_pad _ h2), if_pos rfl, ite_true,
        Except.ok.injEq, List.cons.injEq, and_true]
      omega
  | b0 :: b1 :: b2 :: rest, h => by
      have hb0 : b0 < 256 := h b0 (by simp)
      have hb1 : b1 < 256 := h b1 (by simp)
      have hb2 : b2 < 256 := h b2 (by simp)
      have ih := b64Decode_b64Encode rest (fun b hb => h b (by simp [hb]))
      have h0 : b0 / 4 < 64 := by omega
      have h1 : b0 % 4 * 16 + b1 / 16 < 64 := by omega
      have h2 : b1 % 16 * 4 + b2 / 64 < 64 := by omega
      have h3 : b2 % 64 < 64 := by omega
      simp only [b64Encode, b64Decode, charToSextet_sextetToChar _ h0,
        charToSextet_sextetToChar _ h1, charToSextet_sextetToChar _ h2,
        charToSextet_sextetToChar _ h3,
        if_neg (sextetToChar_ne_pad _ h2), if_neg (sextetToChar_ne_pad _ h3),
        ih, Except.ok.injEq, List.cons.injEq, and_true]
      omega

/-! ## Data URIs (`go-gai/utils/data.go`) -/

/-- The `";base64,"` substring `DataURIToBytes` searches for. -/
def b64Marker : List Char := ";base64,".toList

/-- `utils.DataURIToBytes`: find the first `";base64,"`, base64-decode
everything after it; error when the marker is absent or the payload is not
valid base64. -/
def DataURIToBytes (dataURI : List Char) : Except Unit (List Nat) :=
  match goIndex dataURI b64Marker with
  | none => .error ()
  | some idx => b64Decode (dataURI.drop (idx + b64Marker.length))

/-- The `fmt.Sprintf("data:%s;base64,%s", mimeType, encoded)` pattern both
clients use to build data URIs. -/
def toDataURI (mime : List Char) (b : List Nat) : List Char :=
  "data:".toList ++ mime ++ ";base64,".toList ++ b64Encode b

theorem mem_of_getElem_some {l : List Char} {i : Nat} {a : Char}
    (h : l[i]? = some a) : a ∈ l := by
  obtain ⟨hlt, he⟩ := List.getElem?_eq_some.mp h
  exact he ▸ l.getElem_mem hlt

theorem goIndex_self_append (x p : List Char) : goIndex (x ++ p) x = some 0 := by
  cases hxp : x ++ p with
  | nil =>
      have hx : x = [] := by cases x <;> simp_all
      subst hx
      simp only [List.nil_append] at hxp
      subst hxp
      simp [goIndex]
  | cons a t =>
      have hpre : x.isPrefixOf (a :: t) = true := by
        rw [← hxp, List.isPrefixOf_iff_prefix]
        exact List.prefix_append x p
      simp [hxp, goIndex, hpre]

theorem getElem?_append_mid_comma (l r : List Char) :
    ((l ++ [',']) ++ r)[l.length]? = some ',' := by
  rw [List.append_assoc, List.getElem?_append_right (Nat.le_refl _)]
  simp

/-- When the needle is a comma-free run followed by one comma, and the part of
the haystack before the needle is comma-free, the first occurrence of the
needle is exactly where it was concatenated in. -/
theorem goIndex_marker_append (pre : List Char) (hpre : ',' ∉ pre) :
    ∀ (u p : List Char), ',' ∉ u →
      goIndex (u ++ ((pre ++ [',']) ++ p)) (pre ++ [',']) = some u.length
  | [], p, _ => by simpa using goIndex_self_append (pre ++ [',']) p
  | c :: u', p, hu => by
      have hu' : ',' ∉ u' := fun h => hu (List.mem_cons_of_mem _ h)
      have hc : c ≠ ',' := fun h => hu (h ▸ List.mem_cons_self _ _)
      have hnot : ¬ (pre ++ [',']).isPrefixOf (c :: (u' ++ ((pre ++ [',']) ++ p))) := by
        intro hIsP
        rw [List.isPrefixOf_iff_prefix] at hIsP
        obtain ⟨t, ht⟩ := hIsP
        have hcomma : (c :: (u' ++ ((pre ++ [',']) ++ p)))[pre.length]? = some ',' := by
          rw [← ht]
          exact getElem?_append_mid_comma pre t
        match hn : pre.length with
        | 0 =>
            rw [hn] at hcomma
            simp only [List.getElem?_cons_zero, Option.some.injEq] at hcomma
            exact hc hcomma
        | m + 1 =>
            rw [hn] at hcomma
            simp only [List.getElem?_cons_succ] at hcomma
            by_cases hm : m < u'.length
            · rw [List.getElem?_append_left hm] at hcomma
              exact hu' (mem_of_getElem_some hcomma)
            · rw [List.getElem?_append_right (Nat.le_of_not_lt hm)] at hcomma
              have hj : m - u'.length < pre.length := by omega
              have hj' : m - u'.length < (pre ++ [',']).length := by
                simp only [List.length_append, List.length_cons, List.length_nil]
                omega
              rw [List.getElem?_append_left hj'] at hcomma
              rw [List.getElem?_append_left hj] at hcomma
              exact hpre (mem_of_getElem_some hcomma)
      have ih := goIndex_marker_append pre hpre u' p hu'
      show goIndex (c :: (u' ++ ((pre ++ [',']) ++ p))) (pre ++ [','])
          = some (u'.length + 1)
      rw [goIndex, if_neg hnot, ih]
      rfl

/-- Claim C6 — decoding the data URI produced by encoding a byte sequence
returns exactly that byte sequence: `DataURIToBytes` applied to
`data:<mime>;base64,<standard base64 of b>` yields `b`, for every byte
sequence `b` and every MIME string free of commas (every MIME type the
detectors can produce is comma-free). -/
theorem dataURI_roundtrip (mime : List Char) (b : List Nat)
    (hmime : ',' ∉ mime) (hb : ∀ x ∈ b, x < 256) :
    DataURIToBytes (toDataURI mime b) = .ok b := by
  have hsplit : toDataURI mime b
      = ("data:".toList ++ mime) ++ ((";base64".toList ++ [',']) ++ b64Encode b) := by
    simp [toDataURI]
  have hu : ',' ∉ ("data:".toList ++ mime) := by
    intro h
    rcases List.mem_append.mp h with h | h
    · revert h; decide
    · exact hmime h
  have hpre : ',' ∉ ";base64".toList := by decide
  have hidx : goIndex (toDataURI mime b) b64Marker
      = some ("data:".toList ++ mime).length := by
    rw [hsplit]
    have hmk : b64Marker = ";base64".toList ++ [','] := by decide
    rw [hmk]
    exact goIndex_marker_append _ hpre _ _ hu
  have hdrop : (toDataURI mime b).drop (("data:".toList ++ mime).length + b64Marker.length)
      = b64Encode b := by
    rw [hsplit, ← List.append_assoc]
    have hlen : (("data:".toList ++ mime) ++ (";base64".toList ++ [','])).length
        = ("data:".toList ++ mime).length + b64Marker.length := by
      simp [b64Marker]
    rw [← hlen, List.drop_left]
  rw [DataURIToBytes, hidx]
  show b64Decode ((toDataURI mime b).drop
      (("data:".toList ++ mime).length + b64Marker.length)) = Except.ok b
  rw [hdrop]
  exact b64Decode_b64Encode b hb

/-- Witness for C6 at `mime = "image/png"`, `b = [77, 75, 1]`. -/
theorem dataURI_roundtrip_witness :
    DataURIToBytes (toDataURI "image/png".toList [77, 75, 1]) = .ok [77, 75, 1] :=
  dataURI_roundtrip "image/png".toList [77, 75, 1] (by decide) (by decide)

/-! ## Conversation data model (`types/conversation_repository.go`) -/

/-- `ConversationRepositoryConversationItemContentItem`: one tagged payload of
a turn (kinds `text`, `image`, `audio`, `attachment`). -/
structure ContentItem where
  type : String
  content : String
deriving DecidableEq

/-- `ConversationRepositoryConversationItem`: one turn of a conversation.
The Go struct's `Contents` field is a nilable slice; the items the core
builds always allocate it, so contents are modelled as a plain list. -/
structure ConversationItem where
  role : String
  model : String
  time : String
  contents : List ContentItem
  responseFormat : String := ""
deriving DecidableEq

/-- `ConversationRepositoryConversation`. -/
abbrev Conversation := List ConversationItem

/-! ## Application context (`go-gai/types/app_context.ai.go`) -/

/-- The `AppContext` fields the conversation core reads, plus the outcome of
the clock capability (`GetISOTime`). Environment variables are an association
list, mirroring `GetEnv` (absent variables read as `""`). -/
structure AppContext where
  systemPrompt : String
  systemRole : String
  maxTokens : Int
  env : List (String × String)
  isoTime : String
deriving DecidableEq

/-- `AppContext.GetEnv`. -/
def AppContext.GetEnv (app : AppContext) (name : String) : String :=
  match app.env.lookup name with
  | some v => v
  | none => ""

/-- `AppContext.GetSystemPrompt`: flag first, then `GAI_SYSTEM_PROMPT`, then
the caller-supplied default. -/
def AppContext.GetSystemPrompt (app : AppContext) (defaultPrompt : String) : String :=
  let fromFlag := goTrimSpace app.systemPrompt
  let fromEnv := goTrimSpace (app.GetEnv "GAI_SYSTEM_PROMPT")
  let systemPrompt := if fromFlag = "" then fromEnv else fromFlag
  if systemPrompt = "" then defaultPrompt else systemPrompt

/-- `AppContext.GetSystemRole`: flag first, then `GAI_SYSTEM_ROLE`, then
`"system"`. -/
def AppContext.GetSystemRole (app : AppContext) : String :=
  let fromFlag := goTrimSpace app.systemRole
  let fromEnv := goTrimSpace (app.GetEnv "GAI_SYSTEM_ROLE")
  let systemRole := if fromFlag = "" then fromEnv else fromFlag
  if systemRole = "" then "system" else systemRole

/-- `AppContext.GetMaxTokens`: the flag when positive, else a parse of
`GAI_MAX_TOKENS` (parse failure is an error), else `none` ("let AI decide"). -/
def AppContext.GetMaxTokens (app : AppContext) : Except Unit (Option Int) :=
  let flagTokens := app.maxTokens
  if flagTokens ≤ 0 then
    let fromEnv := goTrimSpace (app.GetEnv "GAI_MAX_TOKENS")
    if fromEnv ≠ "" then
      match fromEnv.toInt? with
      | none => .error ()
      | some num => if num > 0 then .ok (some num) else .ok none
    else .ok none
  else .ok (some flagTokens)

/-! ## System-prompt injection (`setupSystemPromptIfNeeded`, identical in
`openai_client.go` and the Ollama client) -/

/-- The system turn `setupSystemPromptIfNeeded` synthesizes. -/
def systemPromptTurn (app : AppContext) (defaultPrompt model : String) : ConversationItem :=
  { role := app.GetSystemRole
    model := model
    time := app.isoTime
    contents := [{ type := "text", content := goTrimSpace (app.GetSystemPrompt defaultPrompt) }] }

/-- `setupSystemPromptIfNeeded`: only on a conversation with zero turns, and
only when the resolved, trimmed system prompt is non-empty, append one
system-role turn holding that prompt as a single text content item. -/
def setupSystemPromptIfNeeded (app : AppContext) (conversation : Conversation)
    (defaultPrompt model : String) : Conversation :=
  if conversation.length = 0 then
    let systemPrompt := goTrimSpace (app.GetSystemPrompt defaultPrompt)
    if systemPrompt ≠ "" then
      conversation ++ [systemPromptTurn app defaultPrompt model]
    else
      conversation
  else
    conversation

/-- An `AppContext` with no system-prompt configuration. -/
def appNoConfig : AppContext :=
  { systemPrompt := "", systemRole := "", maxTokens := 0, env := [], isoTime := "t0" }

/-- Counterexample to claim C1 as stated: on a conversation with zero turns
but an empty prompt (and no configured system prompt), no system turn is
appended, so "appends ... if and only if the conversation has zero turns"
fails in the forward direction. -/
theorem setupSystemPrompt_counterexample :
    setupSystemPromptIfNeeded appNoConfig [] "" "gpt-4.1-mini" = ([] : Conversation)
      ∧ ([] : Conversation).length = 0 := by
  constructor
  · rfl
  · rfl

/-- Claim C1, amended — `setupSystemPromptIfNeeded` appends a system-role turn
whose single text content item holds the resolved trimmed prompt if and only
if the conversation has zero turns AND that resolved prompt is non-empty; on a
conversation with one or more turns it never mutates, and the operation is
idempotent. -/
theorem setupSystemPrompt_spec (app : AppContext) (conversation : Conversation)
    (defaultPrompt model : String) :
    (conversation = [] ∧ goTrimSpace (app.GetSystemPrompt defaultPrompt) ≠ "" →
      setupSystemPromptIfNeeded app conversation defaultPrompt model
        = conversation ++ [systemPromptTurn app defaultPrompt model])
    ∧ (conversation ≠ [] ∨ goTrimSpace (app.GetSystemPrompt defaultPrompt) = "" →
      setupSystemPromptIfNeeded app conversation defaultPrompt model = conversation)
    ∧ setupSystemPromptIfNeeded app
        (setupSystemPromptIfNeeded app conversation defaultPrompt model)
        defaultPrompt model
      = setupSystemPromptIfNeeded app conversation defaultPrompt model := by
  refine ⟨?_, ?_, ?_⟩
  · rintro ⟨hconv, hne⟩
    subst hconv
    simp [setupSystemPromptIfNeeded, hne]
  · rintro (hconv | hempty)
    · have hlen : conversation.length ≠ 0 := by
        simpa [List.length_eq_zero] using hconv
      simp [setupSystemPromptIfNeeded, hlen]
    · simp [setupSystemPromptIfNeeded, hempty]
  · by_cases hlen : conversation.length = 0
    · by_cases hne : goTrimSpace (app.GetSystemPrompt defaultPrompt) = ""
      · simp [setupSystemPromptIfNeeded, hlen, hne]
      · have hconv : conversation = [] := List.length_eq_zero.mp hlen
        subst hconv
        simp [setupSystemPromptIfNeeded, hne]
    · simp [setupSystemPromptIfNeeded, hlen]

/-- Witness for the amended C1 at a concrete context, conversation and prompt. -/
theorem setupSystemPrompt_spec_witness :
    (setupSystemPromptIfNeeded appNoConfig [] "be brief" "m"
        = [systemPromptTurn appNoConfig "be brief" "m"])
    ∧ (setupSystemPromptIfNeeded appNoConfig
        [{ role := "user", model := "m", time := "t1",
           contents := [{ type := "text", content := "hi" }] }] "be brief" "m"
        = [{ role := "user", model := "m", time := "t1",
             contents := [{ type := "text", content := "hi" }] }]) := by
  constructor
  · exact (setupSystemPrompt_spec appNoConfig [] "be brief" "m").1 ⟨rfl, by decide⟩
  · exact (setupSystemPrompt_spec appNoConfig
      [{ role := "user", model := "m", time := "t1",
         contents := [{ type := "text", content := "hi" }] }] "be brief" "m").2.1
      (Or.inl (by decide))


/-! ## ChatContext and the conversation repository (`types/chat_context.go`) -/

/-- Go map update: replace the value under an existing key, append otherwise. -/
def upsert {α : Type} : List (String × α) → String → α → List (String × α)
  | [], k, v => [(k, v)]
  | (k', v') :: t, k, v =>
      if k' = k then (k, v) :: t else (k', v') :: upsert t k v

/-- `ConversationRepositoryConversationContext`: the per-context record; its
`Conversation` slice is nilable. -/
structure ConvContext where
  conversation : Option Conversation
deriving DecidableEq

/-- `ConversationRepositoryConversationContextes`: context slug → nilable
pointer to a context record. -/
abbrev ContextMap := List (String × Option ConvContext)

instance : DecidableEq (List (String × Option (List (String × Option ConvContext)))) :=
  fun a b => List.hasDecEq a b

/-- `ConversationRepository`: its `Conversations` field (directory → nilable
context map) is itself nilable. -/
structure ConversationRepository where
  conversations : Option (List (String × Option ContextMap))
deriving DecidableEq

/-- `ChatContext`: the session handle. `conversations` is a nilable pointer to
the repository; `cwd` is `App.WorkingDirectory`. -/
structure ChatContext where
  cwd : String
  conversations : Option ConversationRepository
  currentContext : String
deriving DecidableEq

/-- The directory-level map `ensureConversation` works on (`repo.Conversations`,
with nil pointers read as their zero values). -/
def repoMap (ctx : ChatContext) : List (String × Option ContextMap) :=
  ((ctx.conversations.getD { conversations := none }).conversations).getD []

/-- The context-level map under `ctx.cwd`. -/
def cwdMap (ctx : ChatContext) : ContextMap :=
  (((repoMap ctx).lookup ctx.cwd).getD none).getD []

/-- The (nilable) turn sequence stored under `(ctx.cwd, ctx.currentContext)`. -/
def storedConversation (ctx : ChatContext) : Option Conversation :=
  ((((cwdMap ctx).lookup ctx.currentContext).getD none).getD
    { conversation := none }).conversation

/-- The turn sequence stored under `(dir, name)`, `none` when any link of the
path is missing or nil. -/
def conversationAt (ctx : ChatContext) (dir name : String) : Option Conversation :=
  (((((((ctx.conversations.getD { conversations := none }).conversations).getD []
    ).lookup dir).getD none).getD []).lookup name |>.getD none |>.getD
    { conversation := none }).conversation

/-- `ChatContext.ensureConversation`: materialize the repository, both map
levels and a non-nil turn slice for `(cwd, currentContext)`, creating each
missing link; existing links are left exactly as they are. -/
def ensureConversation (ctx : ChatContext) : ChatContext :=
  { ctx with
      conversations := some { conversations := some (
        upsert (repoMap ctx) ctx.cwd (some (
          upsert (cwdMap ctx) ctx.currentContext (some
            { conversation := some ((storedConversation ctx).getD []) })))) } }

/-- `ChatContext.SwitchContext`: normalize the name through the slug library
(`slug.MakeLang(c, "en")`, abstracted as `slugFn`), lower-case and trim it,
set it as the current context, and ensure that context exists in the store. -/
def SwitchContext (slugFn : String → String) (ctx : ChatContext) (c : String) :
    ChatContext :=
  ensureConversation
    { ctx with currentContext := goTrimSpace (goToLower (slugFn c)) }

/-- The turn sequence of the active context. -/
def activeConversation (ctx : ChatContext) : Option Conversation :=
  conversationAt ctx ctx.cwd ctx.currentContext

theorem lookup_upsert_self {α : Type} (m : List (String × α)) (k : String) (v : α) :
    (upsert m k v).lookup k = some v := by
  induction m with
  | nil => simp [upsert]
  | cons hd t ih =>
      obtain ⟨k', v'⟩ := hd
      by_cases hk : k' = k
      · simp [upsert, hk, List.lookup]
      · have hbeq : (k == k') = false :=
          beq_eq_false_iff_ne.mpr (Ne.symm hk)
        simp [upsert, hk, List.lookup, hbeq, ih]

theorem lookup_upsert_ne {α : Type} (m : List (String × α)) (k k' : String) (v : α)
    (hne : k' ≠ k) : (upsert m k v).lookup k' = m.lookup k' := by
  have hbeq : (k' == k) = false := beq_eq_false_iff_ne.mpr hne
  induction m with
  | nil => simp [upsert, List.lookup, hbeq]
  | cons hd t ih =>
      obtain ⟨a, w⟩ := hd
      by_cases hk : a = k
      · subst hk
        simp [upsert, List.lookup, hbeq]
      · by_cases hka : k' = a
        · subst hka
          simp [upsert, hk, List.lookup]
        · have hbeq2 : (k' == a) = false := beq_eq_false_iff_ne.mpr hka
          simp [upsert, hk, List.lookup, hbeq2, ih]

/-- `ensureConversation` does not touch other directories. -/
theorem conversationAt_ensure_other_dir (ctx : ChatContext) (dir name : String)
    (hdir : dir ≠ ctx.cwd) :
    conversationAt (ensureConversation ctx) dir name = conversationAt ctx dir name := by
  unfold conversationAt ensureConversation
  simp only [Option.getD_some]
  rw [lookup_upsert_ne _ _ _ _ hdir]
  rfl

/-- `ensureConversation` does not touch other contexts of the directory. -/
theorem conversationAt_ensure_other_name (ctx : ChatContext) (name : String)
    (hname : name ≠ ctx.currentContext) :
    conversationAt (ensureConversation ctx) ctx.cwd name
      = conversationAt ctx ctx.cwd name := by
  unfold conversationAt ensureConversation
  simp only [Option.getD_some]
  rw [lookup_upsert_self]
  simp only [Option.getD_some]
  rw [lookup_upsert_ne _ _ _ _ hname]
  rfl

/-- `ensureConversation` stores back the previous active sequence, or a fresh
empty one when none existed. -/
theorem conversationAt_ensure_active (ctx : ChatContext) :
    conversationAt (ensureConversation ctx) ctx.cwd ctx.currentContext
      = some ((conversationAt ctx ctx.cwd ctx.currentContext).getD []) := by
  unfold conversationAt ensureConversation
  simp only [Option.getD_some]
  rw [lookup_upsert_self]
  simp only [Option.getD_some]
  rw [lookup_upsert_self]
  rfl

/-- Any stored turn sequence survives `ensureConversation` unchanged. -/
theorem conversationAt_ensure (ctx : ChatContext) (dir name : String)
    (conv : Conversation) (h : conversationAt ctx dir name = some conv) :
    conversationAt (ensureConversation ctx) dir name = some conv := by
  by_cases hdir : dir = ctx.cwd
  · subst hdir
    by_cases hname : name = ctx.currentContext
    · subst hname
      rw [conversationAt_ensure_active, h]
      rfl
    · rw [conversationAt_ensure_other_name _ _ hname, h]
  · rw [conversationAt_ensure_other_dir _ _ _ hdir, h]

/-- Claim C7 — for any slug normalizer, repository state and context names `a`
and `b`: after `SwitchContext a; SwitchContext b; SwitchContext a`, the active
turn sequence is exactly the one that was active under `a` before switching
away, and every stored turn sequence of every context survives both switches
unchanged (no turns reordered, dropped or added). -/
theorem switchContext_restores (slugFn : String → String) (ctx : ChatContext)
    (a b : String) :
    (activeConversation
        (SwitchContext slugFn (SwitchContext slugFn (SwitchContext slugFn ctx a) b) a)
      = activeConversation (SwitchContext slugFn ctx a))
    ∧ (∀ dir name conv,
        conversationAt (SwitchContext slugFn ctx a) dir name = some conv →
        conversationAt
            (SwitchContext slugFn (SwitchContext slugFn (SwitchContext slugFn ctx a) b) a)
            dir name
          = some conv) := by
  have hpreserve : ∀ (s : ChatContext) (c : String) dir name conv,
      conversationAt s dir name = some conv →
      conversationAt (SwitchContext slugFn s c) dir name = some conv := by
    intro s c dir name conv h
    exact conversationAt_ensure _ dir name conv h
  set s1 := SwitchContext slugFn ctx a with hs1
  set s2 := SwitchContext slugFn s1 b with hs2
  set s3 := SwitchContext slugFn s2 a with hs3
  refine ⟨?_, fun dir name conv h =>
    hpreserve s2 a dir name conv (hpreserve s1 b dir name conv h)⟩
  have hc1 : ∃ c1, activeConversation s1 = some c1 := by
    rw [hs1]
    unfold SwitchContext activeConversation
    exact ⟨_, conversationAt_ensure_active _⟩
  obtain ⟨c1, hc1⟩ := hc1
  have hs1cwd : s1.cwd = ctx.cwd := rfl
  have hs1cur : s1.currentContext = goTrimSpace (goToLower (slugFn a)) := rfl
  have h2 : conversationAt s2 ctx.cwd (goTrimSpace (goToLower (slugFn a)))
      = some c1 := by
    rw [hs2]
    apply conversationAt_ensure
    rw [← hs1cwd, ← hs1cur]
    exact hc1
  have h3 : activeConversation s3 = some c1 := by
    show conversationAt s3 s3.cwd s3.currentContext = some c1
    have hs3cwd : s3.cwd = ctx.cwd := rfl
    have hs3cur : s3.currentContext = goTrimSpace (goToLower (slugFn a)) := rfl
    rw [hs3cwd, hs3cur, hs3]
    exact conversationAt_ensure _ _ _ c1 h2
  rw [h3, hc1]

/-- A one-turn conversation used by the C7 witness. -/
def witnessTurnC7 : ConversationItem :=
  { role := "user", model := "m", time := "t",
    contents := [{ type := "text", content := "hi" }] }

/-- A concrete repository state used by the C7 witness. -/
def witnessRepoC7 : List (String × Option ContextMap) :=
  [("/d", some [("work", some { conversation := some [witnessTurnC7] })])]

def witnessCtxC7 : ChatContext :=
  { cwd := "/d",
    conversations := some { conversations := some witnessRepoC7 },
    currentContext := "" }

/-- Witness for C7 at a concrete repository, `slugFn = id`, `a = "work"`,
`b = "play"`. -/
theorem switchContext_restores_witness :
    activeConversation
        (SwitchContext id (SwitchContext id (SwitchContext id witnessCtxC7 "work")
          "play") "work")
      = some [witnessTurnC7] := by
  rw [(switchContext_restores id witnessCtxC7 "work" "play").1]
  decide

/-! ## HTTP status checking (`utils/http.go`) -/

/-- The error `utils.CheckForHttpResponseError` produces: "bad request 400"
with the decoded body, or "unexpected response" with the bare status code. -/
inductive HttpCheckError where
  | badRequest400 (body : String)
  | unexpectedStatus (code : Nat)
deriving DecidableEq

/-- `utils.CheckForHttpResponseError`: any status other than exactly 200 is an
error; only for status 400 the body is read and, when the read succeeds,
included in the error. `readBody` is the outcome of `io.ReadAll(resp.Body)`. -/
def CheckForHttpResponseError (statusCode : Nat) (readBody : Except Unit String) :
    Option HttpCheckError :=
  if statusCode ≠ 200 then
    some (if statusCode = 400 then
      match readBody with
      | .ok s => .badRequest400 s
      | .error _ => .unexpectedStatus statusCode
    else .unexpectedStatus statusCode)
  else none

/-- Counterexample to claim C4 as stated: status 201 lies inside the 2xx
range, yet the status check rejects it, and its error does not carry the
response body. -/
theorem httpCheck_counterexample :
    CheckForHttpResponseError 201 (.ok "created")
      = some (.unexpectedStatus 201)
    ∧ 200 ≤ 201 ∧ 201 ≤ 299 := by
  refine ⟨rfl, by decide, by decide⟩

/-- Claim C4, amended — the status check passes exactly for status 200 (every
other status, 2xx or not, fails), and the decoded response body is carried in
the error only in the 400 case with a successful body read. -/
theorem httpCheck_spec (statusCode : Nat) (readBody : Except Unit String) :
    (CheckForHttpResponseError statusCode readBody = none ↔ statusCode = 200)
    ∧ (∀ body, statusCode = 400 → readBody = .ok body →
        CheckForHttpResponseError statusCode readBody = some (.badRequest400 body))
    ∧ (statusCode ≠ 200 → statusCode ≠ 400 →
        CheckForHttpResponseError statusCode readBody
          = some (.unexpectedStatus statusCode)) := by
  refine ⟨?_, ?_, ?_⟩
  · constructor
    · intro h
      by_contra hne
      simp [CheckForHttpResponseError, hne] at h
    · intro h
      simp [CheckForHttpResponseError, h]
  · intro body h400 hread
    subst h400
    subst hread
    rfl
  · intro hne h400
    simp [CheckForHttpResponseError, hne, h400]

/-- Witness for the amended C4 at statuses 200, 400 and 500. -/
theorem httpCheck_spec_witness :
    CheckForHttpResponseError 200 (.ok "") = none
    ∧ CheckForHttpResponseError 400 (.ok "oops") = some (.badRequest400 "oops")
    ∧ CheckForHttpResponseError 500 (.ok "") = some (.unexpectedStatus 500) :=
  ⟨(httpCheck_spec 200 (.ok "")).1.mpr rfl,
   (httpCheck_spec 400 (.ok "oops")).2.1 "oops" rfl rfl,
   (httpCheck_spec 500 (.ok "")).2.2 (by decide) (by decide)⟩

/-! ## Ollama wire translation (`OllamaClient`) -/

/-- `OllamaAIChatMessage`: one message of the Ollama chat request. -/
structure OllamaAIChatMessage where
  content : String
  images : List String
  role : String
deriving DecidableEq

/-- The loop body of `OllamaClient.appendConversationItemTo`: a text item
overwrites the message content, an image item is appended to the images list,
anything else aborts with "content type not allowed". -/
def ollamaContentsLoop : List ContentItem → String → List String →
    Except String (String × List String)
  | [], c, imgs => .ok (c, imgs)
  | item :: rest, c, imgs =>
      if item.type = "text" then ollamaContentsLoop rest item.content imgs
      else if item.type = "image" then ollamaContentsLoop rest c (imgs ++ [item.content])
      else .error item.type

/-- `OllamaClient.appendConversationItemTo`: translate one stored turn into an
Ollama wire message. Image contents are appended to `images` exactly as
stored. (The Go guard skipping turns with a nil `Contents` slice is not
represented: every turn the core builds allocates the slice.) -/
def ollamaAppendConversationItemTo (messages : List OllamaAIChatMessage)
    (item : ConversationItem) : Except String (List OllamaAIChatMessage) :=
  match ollamaContentsLoop item.contents "" [] with
  | .ok (c, imgs) =>
      .ok (messages ++ [{ content := c, images := imgs, role := item.role }])
  | .error t => .error t

/-- `OllamaClient.AsSupportedImageFormatString`: build the data URI from the
sniffed MIME type (`http.DetectContentType`, passed in as `detectedMime`);
the boolean is false when the MIME type is not an image type (Go's non-nil
error return). -/
def ollamaAsSupportedImageFormatString (detectedMime : String) (b : List Nat) :
    List Char × Bool :=
  (toDataURI detectedMime.data b, goHasPrefixStr detectedMime "image/")

/-- Append one image content item to a turn's contents. -/
def withImageContent (item : ConversationItem) (s : String) : ConversationItem :=
  { item with contents := item.contents ++ [{ type := "image", content := s }] }

/-- One iteration of `OllamaClient.appendFilesTo` for a file whose bytes were
read successfully: only image MIME types are accepted; the stored content is
the data URI cut after its first comma (bare base64). -/
def ollamaAppendFileTo (detectedMime : String) (data : List Nat)
    (item : ConversationItem) : Except String ConversationItem :=
  if goHasPrefixStr detectedMime "image/" then
    match ollamaAsSupportedImageFormatString detectedMime data with
    | (dataURI, true) =>
        let content :=
          match goIndex dataURI [','] with
          | none => dataURI
          | some comma => dataURI.drop (comma + 1)
        .ok (withImageContent item (String.mk content))
    | (_, false) => .error detectedMime
  else .error detectedMime

/-- The stored turn the C3 counterexample replays: one image content item that
holds a full data URI (as items stored by the OpenAI client do). -/
def dataURIImageTurn : ConversationItem :=
  { role := "user", model := "m", time := "t",
    contents := [{ type := "image", content := "data:image/png;base64,AAA" }] }

/-- Counterexample to claim C3 as stated: replaying a stored
`ContentItem{type: image, content: "data:image/png;base64,AAA"}` through the
Ollama history translation emits the stored string verbatim — the payload
still starts with `"data:"`, it is not the bare `"AAA"`. -/
theorem ollamaImageReplay_counterexample :
    ollamaAppendConversationItemTo [] dataURIImageTurn
      = .ok [{ content := "", images := ["data:image/png;base64,AAA"],
               role := "user" }]
    ∧ goHasPrefixStr "data:image/png;base64,AAA" "data:" = true
    ∧ ("data:image/png;base64,AAA" : String) ≠ "AAA" := by
  refine ⟨rfl, by decide, by decide⟩

theorem ollamaContentsLoop_spec (contents : List ContentItem) :
    ∀ (c : String) (imgs : List String),
      (∀ x ∈ contents, x.type = "text" ∨ x.type = "image") →
      ∃ c', ollamaContentsLoop contents c imgs
        = .ok (c', imgs ++ (contents.filter (fun x => x.type = "image")).map
            (fun x => x.content)) := by
  induction contents with
  | nil => intro c imgs _; exact ⟨c, by simp [ollamaContentsLoop]⟩
  | cons hd t ih =>
      intro c imgs h
      rcases h hd (by simp) with htype | htype
      · have hnotimg : ¬ hd.type = "image" := by rw [htype]; decide
        obtain ⟨c', hc'⟩ := ih hd.content imgs (fun x hx => h x (by simp [hx]))
        exact ⟨c', by simp [ollamaContentsLoop, htype, hnotimg, hc']⟩
      · have hnottext : ¬ hd.type = "text" := by rw [htype]; decide
        obtain ⟨c', hc'⟩ := ih c (imgs ++ [hd.content])
          (fun x hx => h x (by simp [hx]))
        refine ⟨c', ?_⟩
        simp only [ollamaContentsLoop, if_neg hnottext, htype, if_pos rfl, hc',
          List.filter_cons, List.map_cons]
        simp [htype]

/-- Claim C3, amended — for Backend B the data-URI stripping happens when a
new image file is ingested into a stored turn (`appendFilesTo`), not during
wire translation: (1) `appendFilesTo` stores, for image bytes, the data URI
cut after its first comma, which is exactly the bare standard base64 of the
bytes; (2) the history translation `appendConversationItemTo` emits stored
image contents verbatim, so a stored item that still holds a full data URI
reaches the wire request with its `data:` lead intact. -/
theorem ollamaImageHandling_spec :
    (∀ (detectedMime : String) (data : List Nat) (item : ConversationItem),
      goHasPrefixStr detectedMime "image/" = true →
      (',' : Char) ∉ detectedMime.data →
      ollamaAppendFileTo detectedMime data item
        = .ok (withImageContent item (String.mk (b64Encode data))))
    ∧ (∀ (messages : List OllamaAIChatMessage) (item : ConversationItem),
      (∀ x ∈ item.contents, x.type = "text" ∨ x.type = "image") →
      ∃ c', ollamaAppendConversationItemTo messages item
        = .ok (messages ++ [{ content := c',
                              images := (item.contents.filter
                                (fun x => x.type = "image")).map (fun x => x.content),
                              role := item.role }])) := by
  constructor
  · intro detectedMime data item hmime hcomma
    have hfirst : goIndex (toDataURI detectedMime.data data) [',']
        = some (("data:".toList ++ detectedMime.data ++ ";base64".toList).length) := by
      have hsplit : toDataURI detectedMime.data data
          = ("data:".toList ++ detectedMime.data ++ ";base64".toList)
            ++ (([] ++ [',']) ++ b64Encode data) := by
        simp [toDataURI]
      rw [hsplit]
      have hu : (',' : Char) ∉ ("data:".toList ++ detectedMime.data ++ ";base64".toList) := by
        intro hmem
        rcases List.mem_append.mp hmem with hmem | hmem
        · rcases List.mem_append.mp hmem with hmem | hmem
          · revert hmem; decide
          · exact hcomma hmem
        · revert hmem; decide
      have hm := goIndex_marker_append []
        (by simp) ("data:".toList ++ detectedMime.data ++ ";base64".toList)
        (b64Encode data) hu
      simp only [List.nil_append] at hm
      simp only [List.nil_append]
      exact hm
    have hdrop : (toDataURI detectedMime.data data).drop
        (("data:".toList ++ detectedMime.data ++ ";base64".toList).length + 1)
        = b64Encode data := by
      have hsplit : toDataURI detectedMime.data data
          = (("data:".toList ++ detectedMime.data ++ ";base64".toList) ++ [','])
            ++ b64Encode data := by
        simp [toDataURI]
      rw [hsplit]
      have hlen : (("data:".toList ++ detectedMime.data ++ ";base64".toList)
          ++ [',']).length
          = ("data:".toList ++ detectedMime.data ++ ";base64".toList).length + 1 := by
        simp
      rw [← hlen, List.drop_left]
    unfold ollamaAppendFileTo ollamaAsSupportedImageFormatString
    rw [hmime, if_pos rfl]
    show Except.ok (withImageContent item (String.mk
      (match goIndex (toDataURI detectedMime.data data) [','] with
       | none => toDataURI detectedMime.data data
       | some comma => (toDataURI detectedMime.data data).drop (comma + 1)))) = _
    rw [hfirst]
    show Except.ok (withImageContent item (String.mk
      ((toDataURI detectedMime.data data).drop
        (("data:".toList ++ detectedMime.data ++ ";base64".toList).length + 1)))) = _
    rw [hdrop]
  · intro messages item h
    obtain ⟨c', hc'⟩ := ollamaContentsLoop_spec item.contents "" [] h
    refine ⟨c', ?_⟩
    unfold ollamaAppendConversationItemTo
    rw [hc']
    simp

/-- Witness for the amended C3: ingesting two image bytes stores their bare
base64, and replaying a mixed text/image turn emits the stored image content
verbatim. -/
theorem ollamaImageHandling_spec_witness :
    ollamaAppendFileTo "image/png" [1, 2]
        { role := "user", model := "m", time := "t", contents := [] }
      = .ok (withImageContent
          { role := "user", model := "m", time := "t", contents := [] }
          (String.mk (b64Encode [1, 2])))
    ∧ ∃ c', ollamaAppendConversationItemTo [] dataURIImageTurn
        = .ok [{ content := c',
                 images := ["data:image/png;base64,AAA"], role := "user" }] := by
  constructor
  · exact ollamaImageHandling_spec.1 "image/png" [1, 2]
      { role := "user", model := "m", time := "t", contents := [] }
      (by decide) (by decide)
  · obtain ⟨c', hc'⟩ := ollamaImageHandling_spec.2 [] dataURIImageTurn
      (by decide)
    exact ⟨c', by simpa using hc'⟩

/-! ## Mime detection (`DetectMime`, extended variant with office checks) -/

/-- Bytes of an ASCII string literal. -/
def strBytes (s : String) : List Nat := s.data.map Char.toNat

/-- The legacy compound-document (OLE) header bytes tested for the old Excel
format. -/
def oleMagic : List Nat := [0xD0, 0xCF, 0x11, 0xE0, 0xA1, 0xB1, 0x1A, 0xE1]

instance {e a : Type} [DecidableEq e] [DecidableEq a] : DecidableEq (Except e a)
  | .error x, .error y =>
      if h : x = y then .isTrue (by rw [h]) else .isFalse (by simp [h])
  | .error _, .ok _ => .isFalse (by simp)
  | .ok _, .error _ => .isFalse (by simp)
  | .ok x, .ok y =>
      if h : x = y then .isTrue (by rw [h]) else .isFalse (by simp [h])

/-- Outcomes of the three zip-based office-format probes `IsXLSX`, `IsPPTX`
and `IsDOCX` on the buffer (each fails with an error on non-zip data). -/
structure OfficeZipSniff where
  isXLSX : Except Unit Bool
  isPPTX : Except Unit Bool
  isDOCX : Except Unit Bool
deriving DecidableEq

/-- `utils.DetectMime` (extended variant): the ISO-BMFF `ftyp` brand check for
buffers of length ≥ 12, **else** the OLE-header check for buffers of length
≥ 8 (the `else if` keeps this branch from ever running on buffers of length
≥ 12), then the zip-based office probes, then the generic
`http.DetectContentType` sniffing (its result passed in as `fallback`). -/
def DetectMime (zipSniff : OfficeZipSniff) (fallback : String) (b : List Nat) : String :=
  let special : Option String :=
    if 12 ≤ b.length then
      if (b.drop 4).take 4 = strBytes "ftyp" then
        let brand := (b.drop 8).take 4
        if brand = strBytes "heic" ∨ brand = strBytes "heix"
            ∨ brand = strBytes "hevc" ∨ brand = strBytes "hevx" then
          some "image/heic"
        else if brand = strBytes "mif1" ∨ brand = strBytes "msf1" then
          some "image/heif"
        else if brand = strBytes "avif" then
          some "image/avif"
        else none
      else none
    else if 8 ≤ b.length then
      if b.take 8 = oleMagic then some "application/vnd.ms-excel" else none
    else none
  match special with
  | some m => m
  | none =>
      match zipSniff.isXLSX with
      | .ok true => "application/vnd.openxmlformats-officedocument.spreadsheetml.sheet"
      | _ =>
          match zipSniff.isPPTX with
          | .ok true =>
              "application/vnd.openxmlformats-officedocument.presentationml.presentation"
          | _ =>
              match zipSniff.isDOCX with
              | .ok true =>
                  "application/vnd.openxmlformats-officedocument.wordprocessingml.document"
              | _ => fallback

/-- A 12-byte buffer that begins with the compound-document header. -/
def oleBuf12 : List Nat := oleMagic ++ [0, 0, 0, 0]

/-- The probe outcomes on non-zip data: `zip.NewReader` fails, so all three
office checks return errors. -/
def nonZipSniff : OfficeZipSniff :=
  { isXLSX := .error (), isPPTX := .error (), isDOCX := .error () }

/-- Claim C8 evaluated at the failing input — a 12-byte buffer beginning with
the compound-document header bytes falls through to generic sniffing
(`application/octet-stream` for these bytes) instead of the legacy
spreadsheet MIME type, because the OLE check sits in the `else` branch of the
length ≥ 12 test; the same header in an 8-byte buffer is classified as
claimed. Every real compound-document file is far longer than 12 bytes, so
the check never fires on one: the claim matches the evident intent and the
code is the slip. -/
theorem detectMime_oleHeader_bug :
    DetectMime nonZipSniff "application/octet-stream" oleBuf12
      = "application/octet-stream"
    ∧ DetectMime nonZipSniff "application/octet-stream" oleBuf12
      ≠ "application/vnd.ms-excel"
    ∧ oleBuf12.take 8 = oleMagic
    ∧ 8 ≤ oleBuf12.length
    ∧ DetectMime nonZipSniff "application/octet-stream" oleMagic
      = "application/vnd.ms-excel" := by
  refine ⟨rfl, by decide, by decide, by decide, rfl⟩

/-! ## OpenAI request body (`OpenAIClient.Chat`) -/

/-- The serialized `response_format` object `toResponseFormat` builds:
`{"type": "json_schema", "json_schema": {"name": <name>, "schema": <schema>}}`.
The schema itself is an opaque JSON object, kept as its key-value skeleton. -/
structure ResponseFormat where
  name : String
  schema : List (String × String)
deriving DecidableEq

/-- `OpenAIClient.toResponseFormat`: `nil` schema maps to `nil`. -/
def toResponseFormat (schema : Option (List (String × String))) (schemaName : String) :
    Option ResponseFormat :=
  schema.map (fun s => { name := schemaName, schema := s })

/-- A value stored in the `map[string]any` request body of the OpenAI client.
`ofIntPtr none` and `ofRespFmtPtr none` model nil `*int64` / `*map[string]any`
pointers; `ofFloat` models the float64 temperature as an exact rational. -/
inductive OpenAIBodyValue where
  | ofString : String → OpenAIBodyValue
  | ofBool : Bool → OpenAIBodyValue
  | ofFloat : Rat → OpenAIBodyValue
  | ofIntPtr : Option Int → OpenAIBodyValue
  | ofRespFmtPtr : Option ResponseFormat → OpenAIBodyValue
  | ofMessageCount : Nat → OpenAIBodyValue
deriving DecidableEq

/-- Whether Go `json.Marshal` emits JSON `null` for the value (it does exactly
for nil pointers stored in the `any`-valued map). -/
def marshalsAsNull : OpenAIBodyValue → Bool
  | .ofIntPtr none => true
  | .ofRespFmtPtr none => true
  | _ => false

/-- The `body` map literal of `OpenAIClient.Chat` (and `Prompt`): all six keys
are always present; `json.Marshal` of a `map[string]any` emits every key, so
none of them is ever omitted from the wire JSON. The messages slice is
abstracted to its length (its value plays no role in field presence). -/
def openAIChatBody (model : String) (messageCount : Nat) (temperature : Rat)
    (maxTokens : Option Int) (responseFormat : Option ResponseFormat) :
    List (String × OpenAIBodyValue) :=
  [("model", .ofString model),
   ("messages", .ofMessageCount messageCount),
   ("stream", .ofBool false),
   ("temperature", .ofFloat temperature),
   ("max_completion_tokens", .ofIntPtr maxTokens),
   ("response_format", .ofRespFmtPtr responseFormat)]

/-- Counterexample to claim C5 as stated: with no maximum-token setting and no
schema attached, the built body still contains both keys (holding nil
pointers, which marshal to JSON `null`) — neither field is omitted. -/
theorem openAIBody_counterexample :
    ((openAIChatBody "gpt-4.1-mini" 1 (3 / 10) none none).lookup
        "max_completion_tokens" = some (.ofIntPtr none))
    ∧ ((openAIChatBody "gpt-4.1-mini" 1 (3 / 10) none none).lookup
        "response_format" = some (.ofRespFmtPtr none))
    ∧ ((openAIChatBody "gpt-4.1-mini" 1 (3 / 10) none none).map
        (fun f => f.1)).contains "max_completion_tokens" = true := by
  refine ⟨rfl, rfl, rfl⟩

/-- Claim C5, amended — in every request body Backend A builds, the fields
`max_completion_tokens` and `response_format` are always present: when no
maximum-token setting is configured (`GetMaxTokens` yields nil) the former is
serialized as JSON `null` rather than omitted, and when no schema is attached
the latter is serialized as JSON `null` rather than omitted. -/
theorem openAIBody_spec (app : AppContext) (model : String) (messageCount : Nat)
    (temperature : Rat) (maxTokens : Option Int)
    (responseFormat : Option ResponseFormat)
    (hmt : app.GetMaxTokens = .ok maxTokens) :
    ((openAIChatBody model messageCount temperature maxTokens responseFormat).lookup
        "max_completion_tokens" = some (.ofIntPtr maxTokens)
      ∧ (marshalsAsNull (.ofIntPtr maxTokens) = true ↔ maxTokens = none))
    ∧ ((openAIChatBody model messageCount temperature maxTokens responseFormat).lookup
        "response_format" = some (.ofRespFmtPtr responseFormat)
      ∧ (marshalsAsNull (.ofRespFmtPtr responseFormat) = true ↔ responseFormat = none)) := by
  refine ⟨⟨rfl, ?_⟩, ⟨rfl, ?_⟩⟩
  · cases maxTokens <;> simp [marshalsAsNull]
  · cases responseFormat <;> simp [marshalsAsNull]

/-- Witness for the amended C5 with unset max tokens and no schema. -/
theorem openAIBody_spec_witness :
    ((openAIChatBody "gpt-4.1-mini" 1 (3 / 10) none none).lookup
        "max_completion_tokens" = some (.ofIntPtr none)
      ∧ (marshalsAsNull (.ofIntPtr none) = true ↔ (none : Option Int) = none))
    ∧ ((openAIChatBody "gpt-4.1-mini" 1 (3 / 10) none none).lookup
        "response_format" = some (.ofRespFmtPtr none)
      ∧ (marshalsAsNull (.ofRespFmtPtr none) = true
          ↔ (none : Option ResponseFormat) = none)) :=
  openAIBody_spec appNoConfig "gpt-4.1-mini" 1 (3 / 10) none none (by decide)

/-! ## OpenAI wire translation (`OpenAIClient.appendConversationItemTo`) -/

/-- `utils.GetPartsOfDataURI`: split at the first comma, strip a `data:` lead
from the left part, cut the MIME type at the first semicolon, lower-case and
trim it; error when no comma is present. -/
def GetPartsOfDataURI (dataURI : String) : Except String (String × String) :=
  match goSplitN2 dataURI "," with
  | [p0, p1] =>
      let meta := goTrimPrefixOf p0 "data:"
      match goSplitN2 meta ";" with
      | [] => .error "no MIME type found"
      | m0 :: _ => .ok (p1, goTrimSpace (goToLower m0))
  | _ => .error "invalid data URI"

/-- One element of an OpenAI chat message's content array: the
`text` / `image_url` / `input_audio` / `file` block kinds. -/
inductive OpenAIContentItem where
  | textItem (text : String)
  | imageUrl (url : String)
  | inputAudio (data format : String)
  | fileItem (fileData filename : String)
deriving DecidableEq

/-- `OpenAIChatMessage`. -/
structure OpenAIChatMessage where
  content : List OpenAIContentItem
  role : String
deriving DecidableEq

/-- The content loop of `OpenAIClient.appendConversationItemTo`; `i` is the
running index (the synthesized attachment filename uses `i + 1`);
`extByType` is the outcome of `mime.ExtensionsByType` for a MIME type
(a Go stdlib lookup into the host's MIME table). -/
def openAIContentLoop (extByType : String → Except Unit String) :
    List ContentItem → Nat → Except String (List OpenAIContentItem)
  | [], _ => .ok []
  | content :: rest, i =>
      if content.type = "text" then
        (openAIContentLoop extByType rest (i + 1)).map
          (fun tl => .textItem content.content :: tl)
      else if content.type = "image" then
        (openAIContentLoop extByType rest (i + 1)).map
          (fun tl => .imageUrl content.content :: tl)
      else if content.type = "audio" then
        match GetPartsOfDataURI content.content with
        | .error e => .error e
        | .ok (_, mimeType) =>
            let format :=
              if goHasSuffixStr mimeType "mp3" ∨ goHasSuffixStr mimeType "mpeg" then "mp3"
              else if goHasSuffixStr mimeType "wav" then "wav"
              else ""
            if format = "" then .error ("unsupported audio format " ++ mimeType)
            else
              (openAIContentLoop extByType rest (i + 1)).map
                (fun tl => .inputAudio content.content format :: tl)
      else
        match GetPartsOfDataURI content.content with
        | .error e => .error e
        | .ok (_, mimeType) =>
            match extByType mimeType with
            | .error _ => .error "extensions lookup failed"
            | .ok fileExt =>
                (openAIContentLoop extByType rest (i + 1)).map
                  (fun tl => .fileItem content.content
                    ("file_" ++ toString (i + 1) ++ fileExt) :: tl)

/-- `OpenAIClient.appendConversationItemTo`. (As for the Ollama client, the
nil-`Contents` guard is not represented.) -/
def openAIAppendConversationItemTo (extByType : String → Except Unit String)
    (messages : List OpenAIChatMessage) (item : ConversationItem) :
    Except String (List OpenAIChatMessage) :=
  match openAIContentLoop extByType item.contents 0 with
  | .ok cs => .ok (messages ++ [{ content := cs, role := item.role }])
  | .error e => .error e

/-- The history-replay loop of `OpenAIClient.Chat`: translate every stored
turn, then the new user turn. -/
def openAIBuildMessages (extByType : String → Except Unit String) :
    Conversation → ConversationItem → Except String (List OpenAIChatMessage) :=
  fun conversation userMessage =>
    let rec go (messages : List OpenAIChatMessage) :
        Conversation → Except String (List OpenAIChatMessage)
      | [] => .ok messages
      | item :: rest =>
          match openAIAppendConversationItemTo extByType messages item with
          | .error e => .error e
          | .ok m => go m rest
    match go [] conversation with
    | .error e => .error e
    | .ok messages => openAIAppendConversationItemTo extByType messages userMessage

/-! ## The two `Chat` implementations -/

/-- `OpenAIChatCompletionResponseV1ChoiceMessage`. -/
structure OpenAIChoiceMessage where
  content : String
  role : String
deriving DecidableEq

/-- `OpenAIChatCompletionResponseV1Choice`. -/
structure OpenAIChoice where
  index : Int
  message : OpenAIChoiceMessage
deriving DecidableEq

/-- `OpenAIChatCompletionResponseV1` (the `usage` block is unused by `Chat`). -/
structure OpenAIChatCompletionResponseV1 where
  choices : List OpenAIChoice
  model : String
deriving DecidableEq

/-- `OllamaApiChatCompletionResponse`. -/
structure OllamaChatResponseMessage where
  content : String
deriving DecidableEq

structure OllamaApiChatCompletionResponse where
  message : OllamaChatResponseMessage
  model : String
deriving DecidableEq

/-- Where a `Chat` run stops, one constructor per `return`-with-error site. -/
inductive ChatErr where
  | getConversationErr
  | noApiKey
  | noModel
  | maxTokensErr
  | temperatureErr
  | responseFormatErr
  | filesErr
  | translateErr (msg : String)
  | bodyMarshalErr
  | newRequestErr
  | transportErr
  | httpStatus (e : HttpCheckError)
  | bodyReadErr
  | decodeErr
  | saveErr
deriving DecidableEq

/-- What `Chat` returns, plus whether `UpdateConversationWith` was invoked
with saving enabled (the store-write observable of claim C2). -/
structure ChatResult where
  answer : String
  conversation : Conversation
  error : Option ChatErr
  saveAttempted : Bool
deriving DecidableEq

/-- The folded `AIClientChatOptions`. -/
structure ChatOpts where
  noSave : Bool
  systemPrompt : String
  schema : Option (List (String × String))
  schemaName : String
deriving DecidableEq

/-- `OpenAIClient`'s own fields. -/
structure OpenAIClientM where
  apiKey : String
  chatModel : String
deriving DecidableEq

/-- `OllamaClient`'s own fields. -/
structure OllamaClientM where
  chatModel : String
deriving DecidableEq

/-- Outcomes of the effectful steps of `OpenAIClient.Chat`, in call order:
temperature lookup (a float, read as an exact rational), response-format
marshalling, the `appendFilesTo` loop (file reads, sniffing and transcoding,
yielding the content items it appends), request-body marshalling, request
construction, the transport round trip (error or status code), the body read
inside the 400 branch of the status check, the success-path body read, the
JSON decode of the reply, the store write, and the two clock reads. -/
structure OpenAIChatEnv where
  getTemperature : Except Unit Rat
  rfMarshal : Except Unit String
  filesOutcome : Except Unit (List ContentItem)
  bodyMarshalOk : Bool
  newRequestOk : Bool
  doOutcome : Except Unit Nat
  checkBodyRead : Except Unit String
  bodyRead : Except Unit String
  decodeOutcome : Except Unit OpenAIChatCompletionResponseV1
  saveOk : Bool
  timeUser : String
  timeResponse : String
deriving DecidableEq

/-- Same for `OllamaClient.Chat` (no max-tokens lookup, Ollama reply type). -/
structure OllamaChatEnv where
  getTemperature : Except Unit Rat
  rfMarshal : Except Unit String
  filesOutcome : Except Unit (List ContentItem)
  bodyMarshalOk : Bool
  newRequestOk : Bool
  doOutcome : Except Unit Nat
  checkBodyRead : Except Unit String
  bodyRead : Except Unit String
  decodeOutcome : Except Unit OllamaApiChatCompletionResponse
  saveOk : Bool
  timeUser : String
  timeResponse : String
deriving DecidableEq

/-- The new user turn both clients build: one text item with the message,
the file-derived items appended after it, the serialized response format
attached when a schema is present. -/
def mkUserMessage (model msg rfSerialized : String) (fileItems : List ContentItem)
    (time : String) : ConversationItem :=
  { role := "user", model := model, time := time,
    contents := { type := "text", content := msg } :: fileItems,
    responseFormat := rfSerialized }

/-- The assistant turn wrapped around the reply text. -/
def mkAssistantMessage (respModel time answer : String) : ConversationItem :=
  { role := "assistant", model := respModel, time := time,
    contents := [{ type := "text", content := answer }] }

/-- `OpenAIClient.Chat` up to (and excluding) the store write: the full
control flow of the Go method, with each effectful step read from `env` (the
request URL, headers and marshalled JSON feed only into abstracted steps and
are not tracked). An error result carries the conversation value returned
alongside the Go error; a success carries the reply text and the extended
conversation. -/
def openAIChatCore (c : OpenAIClientM) (app : AppContext)
    (extByType : String → Except Unit String) (env : OpenAIChatEnv)
    (conversation0 : Conversation) (msg : String) (opts : ChatOpts) :
    Except (Conversation × ChatErr) (String × Conversation) :=
  let apiKey := goTrimSpace c.apiKey
  if apiKey = "" then .error (conversation0, .noApiKey)
  else
  let model := goTrimSpace (goToLower c.chatModel)
  if model = "" then .error (conversation0, .noModel)
  else
  let conversation := setupSystemPromptIfNeeded app conversation0 opts.systemPrompt model
  match app.GetMaxTokens with
  | .error _ => .error (conversation, .maxTokensErr)
  | .ok maxTokens =>
  match env.getTemperature with
  | .error _ => .error (conversation, .temperatureErr)
  | .ok temperature =>
  let responseFormat := toResponseFormat opts.schema opts.schemaName
  match (match responseFormat with
         | none => Except.ok ""
         | some _ => env.rfMarshal) with
  | .error _ => .error (conversation, .responseFormatErr)
  | .ok rfSerialized =>
  match env.filesOutcome with
  | .error _ => .error (conversation, .filesErr)
  | .ok fileItems =>
  let userMessage := mkUserMessage model msg rfSerialized fileItems env.timeUser
  match openAIBuildMessages extByType conversation userMessage with
  | .error e => .error (conversation, .translateErr e)
  | .ok messages =>
  let _body := openAIChatBody model messages.length temperature maxTokens responseFormat
  if ¬ env.bodyMarshalOk then .error (conversation, .bodyMarshalErr)
  else if ¬ env.newRequestOk then .error (conversation, .newRequestErr)
  else
  match env.doOutcome with
  | .error _ => .error (conversation, .transportErr)
  | .ok statusCode =>
  match CheckForHttpResponseError statusCode env.checkBodyRead with
  | some e => .error (conversation, .httpStatus e)
  | none =>
  match env.bodyRead with
  | .error _ => .error (conversation, .bodyReadErr)
  | .ok _ =>
  match env.decodeOutcome with
  | .error _ => .error (conversation, .decodeErr)
  | .ok chatResponse =>
  let answer :=
    match chatResponse.choices with
    | [] => ""
    | choice :: _ => choice.message.content
  .ok (answer, conversation ++
    [userMessage, mkAssistantMessage chatResponse.model env.timeResponse answer])

/-- `OpenAIClient.Chat`: run the round trip, then — unless `NoSave` is set —
invoke `UpdateConversationWith`, whose own failure is returned to the caller. -/
def openAIChat (c : OpenAIClientM) (app : AppContext)
    (extByType : String → Except Unit String) (env : OpenAIChatEnv)
    (conversation0 : Conversation) (msg : String) (opts : ChatOpts) : ChatResult :=
  match openAIChatCore c app extByType env conversation0 msg opts with
  | .error (conversation, e) => ⟨"", conversation, some e, false⟩
  | .ok (answer, conversation2) =>
      if opts.noSave then ⟨answer, conversation2, none, false⟩
      else if env.saveOk then ⟨answer, conversation2, none, true⟩
      else ⟨answer, conversation2, some .saveErr, true⟩

/-- The history-replay loop of `OllamaClient.Chat`. -/
def ollamaBuildMessages :
    Conversation → ConversationItem → Except String (List OllamaAIChatMessage) :=
  fun conversation userMessage =>
    let rec go (messages : List OllamaAIChatMessage) :
        Conversation → Except String (List OllamaAIChatMessage)
      | [] => .ok messages
      | item :: rest =>
          match ollamaAppendConversationItemTo messages item with
          | .error e => .error e
          | .ok m => go m rest
    match go [] conversation with
    | .error e => .error e
    | .ok messages => ollamaAppendConversationItemTo messages userMessage

/-- `OllamaClient.Chat` up to the store write: same shape as the OpenAI
variant, but with no API-key or max-tokens steps and the response format
passed through unchanged (Ollama's `toResponseFormat` is the identity). -/
def ollamaChatCore (c : OllamaClientM) (app : AppContext) (env : OllamaChatEnv)
    (conversation0 : Conversation) (msg : String) (opts : ChatOpts) :
    Except (Conversation × ChatErr) (String × Conversation) :=
  let model := goTrimSpace (goToLower c.chatModel)
  if model = "" then .error (conversation0, .noModel)
  else
  let conversation := setupSystemPromptIfNeeded app conversation0 "" model
  match env.getTemperature with
  | .error _ => .error (conversation, .temperatureErr)
  | .ok _temperature =>
  let responseFormat := opts.schema
  match (match responseFormat with
         | none => Except.ok ""
         | some _ => env.rfMarshal) with
  | .error _ => .error (conversation, .responseFormatErr)
  | .ok rfSerialized =>
  match env.filesOutcome with
  | .error _ => .error (conversation, .filesErr)
  | .ok fileItems =>
  let userMessage := mkUserMessage model msg rfSerialized fileItems env.timeUser
  match ollamaBuildMessages conversation userMessage with
  | .error e => .error (conversation, .translateErr e)
  | .ok _messages =>
  if ¬ env.bodyMarshalOk then .error (conversation, .bodyMarshalErr)
  else if ¬ env.newRequestOk then .error (conversation, .newRequestErr)
  else
  match env.doOutcome with
  | .error _ => .error (conversation, .transportErr)
  | .ok statusCode =>
  match CheckForHttpResponseError statusCode env.checkBodyRead with
  | some e => .error (conversation, .httpStatus e)
  | none =>
  match env.bodyRead with
  | .error _ => .error (conversation, .bodyReadErr)
  | .ok _ =>
  match env.decodeOutcome with
  | .error _ => .error (conversation, .decodeErr)
  | .ok chatResponse =>
  let answer := chatResponse.message.content
  .ok (answer, conversation ++
    [userMessage, mkAssistantMessage chatResponse.model env.timeResponse answer])

/-- `OllamaClient.Chat`: run the round trip, then invoke
`UpdateConversationWith` unconditionally — the `NoSave` option is never read
and the write error is discarded. -/
def ollamaChat (c : OllamaClientM) (app : AppContext) (env : OllamaChatEnv)
    (conversation0 : Conversation) (msg : String) (opts : ChatOpts) : ChatResult :=
  match ollamaChatCore c app env conversation0 msg opts with
  | .error (conversation, e) => ⟨"", conversation, some e, false⟩
  | .ok (answer, conversation2) => ⟨answer, conversation2, none, true⟩

/-- `ChatContext.GetConversation`: ensure the active context and return its
turn sequence; the second component is the returned error, which this
implementation always leaves nil. -/
def GetConversation (ctx : ChatContext) : Conversation × Option Unit :=
  ((conversationAt (ensureConversation ctx) ctx.cwd ctx.currentContext).getD [], none)

/-- `OpenAIClient.Chat` from its first line: call `ctx.GetConversation()`,
return its error if any (a branch `GetConversation` can never take, but which
the Go method guards), then run the round trip and save on the conversation
it yielded. -/
def openAIChatFromContext (c : OpenAIClientM) (app : AppContext)
    (extByType : String → Except Unit String) (env : OpenAIChatEnv)
    (ctx : ChatContext) (msg : String) (opts : ChatOpts) : ChatResult :=
  match GetConversation ctx with
  | (conversation, some _) => ⟨"", conversation, some .getConversationErr, false⟩
  | (conversation, none) => openAIChat c app extByType env conversation msg opts

/-- `OllamaClient.Chat` from its first line, same shape. -/
def ollamaChatFromContext (c : OllamaClientM) (app : AppContext)
    (env : OllamaChatEnv) (ctx : ChatContext) (msg : String) (opts : ChatOpts) :
    ChatResult :=
  match GetConversation ctx with
  | (conversation, some _) => ⟨"", conversation, some .getConversationErr, false⟩
  | (conversation, none) => ollamaChat c app env conversation msg opts

theorem openAIChat_save_characterization (c : OpenAIClientM) (app : AppContext)
    (extByType : String → Except Unit String) (env : OpenAIChatEnv)
    (conversation0 : Conversation) (msg : String) (opts : ChatOpts) :
    (openAIChat c app extByType env conversation0 msg opts).saveAttempted = true →
      (openAIChat c app extByType env conversation0 msg opts).error = none
      ∨ (openAIChat c app extByType env conversation0 msg opts).error
          = some ChatErr.saveErr := by
  unfold openAIChat
  cases hcore : openAIChatCore c app extByType env conversation0 msg opts with
  | error pe => obtain ⟨cv, e⟩ := pe; simp
  | ok p =>
      obtain ⟨ans, cv⟩ := p
      by_cases hns : opts.noSave <;> cases hsk : env.saveOk <;> simp [hns, hsk]

theorem ollamaChat_save_characterization (c : OllamaClientM) (app : AppContext)
    (env : OllamaChatEnv) (conversation0 : Conversation) (msg : String)
    (opts : ChatOpts) :
    (ollamaChat c app env conversation0 msg opts).saveAttempted = true →
      (ollamaChat c app env conversation0 msg opts).error = none := by
  unfold ollamaChat
  cases hcore : ollamaChatCore c app env conversation0 msg opts with
  | error pe => obtain ⟨cv, e⟩ := pe; simp
  | ok p => obtain ⟨ans, cv⟩ := p; simp

/-- Claim C2 — for both clients, every `Chat` execution that ends in an error
other than the store write's own failure (conversation lookup, missing key,
missing model, configuration lookups, response-format or body marshalling,
file ingestion, history translation, request construction, transport, HTTP
status, body read, reply decode) leaves the persisted store untouched:
`UpdateConversationWith` is reached only after the whole round trip has
succeeded. The model starts where the Go method starts, at
`ctx.GetConversation()` and its error guard. (For the OpenAI client the only
error a run can report with the store already written is the store write's
own failure, `saveErr`; the Ollama client discards that error entirely.) -/
theorem chat_persistsOnlyAfterSuccess :
    (∀ (c : OpenAIClientM) (app : AppContext)
       (extByType : String → Except Unit String) (env : OpenAIChatEnv)
       (ctx : ChatContext) (msg : String) (opts : ChatOpts) (e : ChatErr),
       (openAIChatFromContext c app extByType env ctx msg opts).error = some e →
       e ≠ ChatErr.saveErr →
       (openAIChatFromContext c app extByType env ctx msg opts).saveAttempted = false)
    ∧ (∀ (c : OllamaClientM) (app : AppContext) (env : OllamaChatEnv)
       (ctx : ChatContext) (msg : String) (opts : ChatOpts) (e : ChatErr),
       (ollamaChatFromContext c app env ctx msg opts).error = some e →
       (ollamaChatFromContext c app env ctx msg opts).saveAttempted = false) := by
  constructor
  · intro c app extByType env ctx msg opts e herr hne
    have hred : openAIChatFromContext c app extByType env ctx msg opts
        = openAIChat c app extByType env (GetConversation ctx).1 msg opts := rfl
    rw [hred] at herr ⊢
    cases hsa : (openAIChat c app extByType env (GetConversation ctx).1 msg
        opts).saveAttempted with
    | false => rfl
    | true =>
        rcases openAIChat_save_characterization c app extByType env
          (GetConversation ctx).1 msg opts hsa with hnone | hsave
        · rw [herr] at hnone; exact absurd hnone (by simp)
        · rw [herr] at hsave
          exact absurd (Option.some.inj hsave) hne
  · intro c app env ctx msg opts e herr
    have hred : ollamaChatFromContext c app env ctx msg opts
        = ollamaChat c app env (GetConversation ctx).1 msg opts := rfl
    rw [hred] at herr ⊢
    cases hsa : (ollamaChat c app env (GetConversation ctx).1 msg
        opts).saveAttempted with
    | false => rfl
    | true =>
        have hnone := ollamaChat_save_characterization c app env
          (GetConversation ctx).1 msg opts hsa
        rw [herr] at hnone
        exact absurd hnone (by simp)

/-- A fully successful environment except for a failing transport. -/
def envOpenAIFailTransport : OpenAIChatEnv :=
  { getTemperature := .ok (3 / 10), rfMarshal := .ok "", filesOutcome := .ok [],
    bodyMarshalOk := true, newRequestOk := true, doOutcome := .error (),
    checkBodyRead := .ok "", bodyRead := .ok "", decodeOutcome := .error (),
    saveOk := true, timeUser := "t1", timeResponse := "t2" }

def envOllamaFailTransport : OllamaChatEnv :=
  { getTemperature := .ok (3 / 10), rfMarshal := .ok "", filesOutcome := .ok [],
    bodyMarshalOk := true, newRequestOk := true, doOutcome := .error (),
    checkBodyRead := .ok "", bodyRead := .ok "", decodeOutcome := .error (),
    saveOk := true, timeUser := "t1", timeResponse := "t2" }

/-- Options with every field unset. -/
def optsPlain : ChatOpts :=
  { noSave := false, systemPrompt := "", schema := none, schemaName := "" }

/-- A fresh session handle (no repository yet, default context slug). -/
def freshChatCtx : ChatContext :=
  { cwd := "/d", conversations := none, currentContext := "" }

/-- Witness for C2: both clients, hitting a transport failure, report the
error and leave the store untouched. -/
theorem chat_persistsOnlyAfterSuccess_witness :
    (openAIChatFromContext ⟨"k", "m"⟩ appNoConfig (fun _ => .ok "")
        envOpenAIFailTransport freshChatCtx "hi" optsPlain).saveAttempted = false
    ∧ (ollamaChatFromContext ⟨"m"⟩ appNoConfig envOllamaFailTransport
        freshChatCtx "hi" optsPlain).saveAttempted = false :=
  ⟨chat_persistsOnlyAfterSuccess.1 ⟨"k", "m"⟩ appNoConfig (fun _ => .ok "")
      envOpenAIFailTransport freshChatCtx "hi" optsPlain ChatErr.transportErr
      (by decide) (by decide),
   chat_persistsOnlyAfterSuccess.2 ⟨"m"⟩ appNoConfig envOllamaFailTransport
      freshChatCtx "hi" optsPlain ChatErr.transportErr (by decide)⟩

/-- Claim C10 — a status-200, well-formed OpenAI reply whose `choices` array
is empty does not fail: the reply text is the empty string, and the run still
appends and persists an assistant turn whose single text content item is the
empty string, with the `model` field taken from the reply. -/
theorem openAIChat_emptyChoices (c : OpenAIClientM) (app : AppContext)
    (extByType : String → Except Unit String) (conversation0 : Conversation)
    (msg sp sn respModel t1 t2 body cbr : String)
    (fileItems : List ContentItem) (temperature : Rat) (maxTokens : Option Int)
    (messages : List OpenAIChatMessage)
    (hkey : goTrimSpace c.apiKey ≠ "")
    (hmodel : goTrimSpace (goToLower c.chatModel) ≠ "")
    (hmt : app.GetMaxTokens = .ok maxTokens)
    (htr : openAIBuildMessages extByType
        (setupSystemPromptIfNeeded app conversation0 sp
          (goTrimSpace (goToLower c.chatModel)))
        (mkUserMessage (goTrimSpace (goToLower c.chatModel)) msg "" fileItems t1)
      = .ok messages) :
    openAIChat c app extByType
      { getTemperature := .ok temperature, rfMarshal := .ok "",
        filesOutcome := .ok fileItems, bodyMarshalOk := true, newRequestOk := true,
        doOutcome := .ok 200, checkBodyRead := .ok cbr, bodyRead := .ok body,
        decodeOutcome := .ok { choices := [], model := respModel },
        saveOk := true, timeUser := t1, timeResponse := t2 }
      conversation0 msg
      { noSave := false, systemPrompt := sp, schema := none, schemaName := sn }
    = { answer := "",
        conversation :=
          setupSystemPromptIfNeeded app conversation0 sp
            (goTrimSpace (goToLower c.chatModel))
          ++ [mkUserMessage (goTrimSpace (goToLower c.chatModel)) msg "" fileItems t1,
              mkAssistantMessage respModel t2 ""],
        error := none, saveAttempted := true } := by
  unfold openAIChat openAIChatCore
  rw [if_neg hkey, if_neg hmodel, hmt]
  simp only [toResponseFormat, Option.map_none']
  rw [htr]
  simp [CheckForHttpResponseError]

/-- Witness for C10 at a fully concrete run. -/
theorem openAIChat_emptyChoices_witness :
    openAIChat ⟨"k", "GPT"⟩ appNoConfig (fun _ => Except.ok "")
      { getTemperature := .ok (3 / 10), rfMarshal := .ok "",
        filesOutcome := .ok [], bodyMarshalOk := true, newRequestOk := true,
        doOutcome := .ok 200, checkBodyRead := .ok "", bodyRead := .ok "{}",
        decodeOutcome := .ok { choices := [], model := "gpt-4.1-mini" },
        saveOk := true, timeUser := "t1", timeResponse := "t2" }
      [] "hi" { noSave := false, systemPrompt := "", schema := none, schemaName := "" }
    = { answer := "",
        conversation := [mkUserMessage "gpt" "hi" "" [] "t1",
                         mkAssistantMessage "gpt-4.1-mini" "t2" ""],
        error := none, saveAttempted := true } := by
  have h := openAIChat_emptyChoices ⟨"k", "GPT"⟩ appNoConfig (fun _ => Except.ok "")
    [] "hi" "" "" "gpt-4.1-mini" "t1" "t2" "{}" "" [] (3 / 10) none
    [{ content := [.textItem "hi"], role := "user" }]
    (by decide) (by decide) (by decide) (by decide)
  simpa using h

/-! ## Image normalization (`go-gai/utils/data.go`) -/

/-- `utils.DetectMime` (base variant, no office checks): the ISO-BMFF `ftyp`
brand check, then generic sniffing (`http.DetectContentType`, passed in as
`fallback`). -/
def DetectMimeGai (fallback : String) (b : List Nat) : String :=
  if 12 ≤ b.length then
    if (b.drop 4).take 4 = strBytes "ftyp" then
      let brand := (b.drop 8).take 4
      if brand = strBytes "heic" ∨ brand = strBytes "heix"
          ∨ brand = strBytes "hevc" ∨ brand = strBytes "hevx" then "image/heic"
      else if brand = strBytes "mif1" ∨ brand = strBytes "msf1" then "image/heif"
      else if brand = strBytes "avif" then "image/avif"
      else fallback
    else fallback
  else fallback

/-- Outcomes of the Go stdlib image codecs on one byte buffer: what each
format's `Decode` returns on the buffer, and the bytes `png.Encode` produces
for a decoded image (`Img` is the abstract `image.Image`). -/
structure ImageEnv (Img : Type) where
  jpegDecode : Except Unit Img
  webpDecode : Except Unit Img
  pngDecode : Except Unit Img
  bmpDecode : Except Unit Img
  gifDecode : Except Unit Img
  tiffDecode : Except Unit Img
  pngEncode : Img → List Nat

/-- `utils.ReadImageFromBuffer`: despite its `decode` parameter it always
applies `webp.Decode` to the buffer — the parameter is ignored (the source
bug behind claim C9). -/
def ReadImageFromBuffer {Img : Type} (env : ImageEnv Img)
    (decode : Except Unit Img) (data : List Nat) : Except Unit Img :=
  env.webpDecode

/-- `utils.ConvertImage`: pick the decoder by the detected MIME suffix, read
the image through `ReadImageFromBuffer`, re-encode; error when decoding fails
or no decoder matches (Go also returns the original bytes then). -/
def ConvertImage {Img : Type} (env : ImageEnv Img) (fallback : String)
    (data : List Nat) (encode : Img → List Nat) : Except String (List Nat) :=
  let mimeType := DetectMimeGai fallback data
  let decode : Option (Except Unit Img) :=
    if goHasSuffixStr mimeType "/jpeg" ∨ goHasSuffixStr mimeType "/jpg" then
      some env.jpegDecode
    else if goHasSuffixStr mimeType "/webp" then some env.webpDecode
    else if goHasSuffixStr mimeType "/png" then some env.pngDecode
    else if goHasSuffixStr mimeType "/bmp" then some env.bmpDecode
    else if goHasSuffixStr mimeType "/gif" then some env.gifDecode
    else if goHasSuffixStr mimeType "/tiff" then some env.tiffDecode
    else none
  match decode with
  | some d =>
      match ReadImageFromBuffer env d data with
      | .error _ => .error "decode failed"
      | .ok img => .ok (encode img)
  | none => .error ("type not supported " ++ mimeType)

/-- `utils.EnsurePNG`: pass PNG through, convert everything else. -/
def EnsurePNG {Img : Type} (env : ImageEnv Img) (fallback : String)
    (data : List Nat) : Except String (List Nat) :=
  let mimeType := DetectMimeGai fallback data
  if goHasSuffixStr mimeType "/png" then .ok data
  else ConvertImage env fallback data env.pngEncode

/-- `OpenAIClient.AsSupportedImageFormatString`: JPEG and PNG pass through as
their own data URI; any other image type goes through `EnsurePNG` and, on
success, is re-wrapped as an `image/png` data URI; the boolean is false when
an error is returned alongside the URI. -/
def AsSupportedImageFormatString {Img : Type} (env : ImageEnv Img)
    (fallback : String) (b : List Nat) : List Char × Bool :=
  let mimeType := DetectMimeGai fallback b
  let dataURI := toDataURI mimeType.data b
  if goHasPrefixStr mimeType "image/" then
    if goHasSuffixStr mimeType "/jpeg" ∨ goHasSuffixStr mimeType "/jpg"
        ∨ goHasSuffixStr mimeType "/png" then
      (dataURI, true)
    else
      match EnsurePNG env fallback b with
      | .ok pngData => (toDataURI "image/png".data pngData, true)
      | .error _ => (dataURI, false)
  else (dataURI, false)

/-- A valid 1×1 24-bit BMP file (58 bytes: `BM` header, BITMAPINFOHEADER,
one white pixel plus row padding). -/
def bmpBytes : List Nat :=
  [0x42, 0x4D, 0x3A, 0x00, 0x00, 0x00, 0x00, 0x00, 0x00, 0x00,
   0x36, 0x00, 0x00, 0x00, 0x28, 0x00, 0x00, 0x00, 0x01, 0x00,
   0x00, 0x00, 0x01, 0x00, 0x00, 0x00, 0x01, 0x00, 0x18, 0x00,
   0x00, 0x00, 0x00, 0x00, 0x04, 0x00, 0x00, 0x00, 0x13, 0x0B,
   0x00, 0x00, 0x13, 0x0B, 0x00, 0x00, 0x00, 0x00, 0x00, 0x00,
   0x00, 0x00, 0x00, 0x00, 0xFF, 0xFF, 0xFF, 0x00]

/-- The codec outcomes on `bmpBytes`: `bmp.Decode` succeeds,
`webp.Decode` (and the other decoders) fail — a BMP file carries no RIFF,
JPEG, PNG, GIF or TIFF signature. -/
def bmpImageEnv : ImageEnv Unit :=
  { jpegDecode := .error (), webpDecode := .error (), pngDecode := .error (),
    bmpDecode := .ok (), gifDecode := .error (), tiffDecode := .error (),
    pngEncode := fun _ => [0x89, 0x50, 0x4E, 0x47] }

/-- Claim C9 evaluated at the failing input — on a valid BMP buffer (sniffed
as `image/bmp`, so the BMP decoder is selected and succeeds),
`EnsureSupportedImage` fails and returns the original `image/bmp` data URI
instead of an `image/png` one, because `ReadImageFromBuffer` discards the
decoder it is given and always applies `webp.Decode`, which rejects BMP
data. The doc comment of `ReadImageFromBuffer` ("reads an `image.Image`
instance from byte array with a `types.ImageDecode` function") states the
intended behavior that the claim describes; the code is the slip. -/
theorem ensureSupportedImage_bmp_bug :
    AsSupportedImageFormatString bmpImageEnv "image/bmp" bmpBytes
      = (toDataURI "image/bmp".data bmpBytes, false)
    ∧ ReadImageFromBuffer bmpImageEnv bmpImageEnv.bmpDecode bmpBytes = .error ()
    ∧ bmpImageEnv.bmpDecode = .ok ()
    ∧ DetectMimeGai "image/bmp" bmpBytes = "image/bmp" := by
  refine ⟨rfl, rfl, rfl, rfl⟩

end Gai
